import Mathlib

/-!
# odo pipelines bootstrap: image repository classification and the bootstrap driver

A shallow embedding of `pkg/pipelines/bootstrap.go` and
`pkg/pipelines/service_rolebinding.go`.

Go strings are modelled by Lean `String` (valid UTF-8 text).  A Go result
`(v, error)` is modelled by `Except String v`, the error being its message.
-/

namespace Pipelines

/-! ## The Go standard library functions used by the code -/

/-- Go `unicode.IsSpace`: the Latin-1 cases `\t \n \v \f \r`, space, U+0085,
U+00A0, and beyond Latin-1 the `White_Space` table. -/
def isSpace (r : Char) : Bool :=
  let n := r.toNat
  (0x09 ≤ n && n ≤ 0x0D) || n == 0x20 || n == 0x85 || n == 0xA0 || n == 0x1680 ||
  (0x2000 ≤ n && n ≤ 0x200A) || n == 0x2028 || n == 0x2029 || n == 0x202F ||
  n == 0x205F || n == 0x3000

/-- Go `strings.TrimSpace` on the characters of a string: leading and trailing
white space removed. -/
def trimSpaceChars (cs : List Char) : List Char :=
  ((cs.dropWhile isSpace).reverse.dropWhile isSpace).reverse

/-- Go `strings.TrimSpace`. -/
def TrimSpace (s : String) : String :=
  String.mk (trimSpaceChars s.data)

/-- Splitting a character list at every occurrence of `sep`; the result is never
empty, and a list without `sep` gives the list itself as only component. -/
def splitChars (sep : Char) : List Char → List (List Char)
  | [] => [[]]
  | c :: cs =>
    if c = sep then [] :: splitChars sep cs
    else
      match splitChars sep cs with
      | [] => [[c]]
      | w :: ws => (c :: w) :: ws

/-- Go `strings.Split(s, sep)` for a separator of one character. -/
def Split (s : String) (sep : Char) : List String :=
  (splitChars sep s.data).map String.mk

/-! ## bootstrap.go: options and validateImageRepo -/

/-- The struct `BootstrapOptions`. -/
structure BootstrapOptions where
  DeploymentPath : String
  GithubToken : String
  GitRepo : String
  InternalRegistryHostname : String
  ImageRepo : String
  Prefix : String
  QuayAuthFileName : String
  QuayUserName : String
  SkipChecks : Bool
  deriving Repr, DecidableEq

/-- The value `fmt.Errorf(errorMsg, o.ImageRepo)` of `validateImageRepo`. -/
def errorMsg (imageRepo : String) : String :=
  "failed to parse image repo:" ++ imageRepo ++
    ", expected image repository in the form <registry>/<username>/<repository> or <project>/<app> for internal registry"

/-- The function `validateImageRepo`: `(isInternal, normalized repo)` or the
error. -/
def validateImageRepo (o : BootstrapOptions) : Except String (Bool × String) :=
  let components := Split o.ImageRepo '/'
  -- repo url has minimum of 2 components
  if components.length < 2 then
    .error (errorMsg o.ImageRepo)
  -- check for spaces
  else if components.any (fun v => TrimSpace v == "") then
    .error (errorMsg o.ImageRepo)
  else if components.length = 2 then
    if components.get! 0 == "docker.io" || components.get! 0 == "quay.io" then
      .error (errorMsg o.ImageRepo)
    else
      .ok (true, o.InternalRegistryHostname ++ "/" ++ o.ImageRepo)
  -- Check the first component to see if it is an internal registry
  else if components.length = 3 then
    .ok (components.get! 0 == o.InternalRegistryHostname, o.ImageRepo)
  -- more than 3 components
  else
    .error (errorMsg o.ImageRepo)

/-! ## The Kubernetes API objects the code builds -/

/-- The string pair `types.NamespacedName`. -/
structure NamespacedName where
  Namespace : String
  Name : String
  deriving Repr, DecidableEq

/-- The struct `metav1.TypeMeta`. -/
structure TypeMeta where
  Kind : String
  APIVersion : String
  deriving Repr, DecidableEq

/-- The fields of `metav1.ObjectMeta` that the code sets. -/
structure ObjectMeta where
  Name : String
  Namespace : String
  deriving Repr, DecidableEq

/-- The struct `corev1.ObjectReference`, of which the code sets the name. -/
structure ObjectReference where
  Name : String
  deriving Repr, DecidableEq

/-- The struct `corev1.Namespace`. -/
structure Namespace where
  TypeMeta : TypeMeta
  ObjectMeta : ObjectMeta
  deriving Repr, DecidableEq

/-- The struct `corev1.Secret`; `SecretType` is its field `Type`. -/
structure Secret where
  TypeMeta : TypeMeta
  ObjectMeta : ObjectMeta
  SecretType : String
  Data : List (String × String)
  deriving Repr, DecidableEq

/-- The struct `corev1.ServiceAccount`. -/
structure ServiceAccount where
  TypeMeta : TypeMeta
  ObjectMeta : ObjectMeta
  Secrets : List ObjectReference
  deriving Repr, DecidableEq

/-- The struct `v1rbac.PolicyRule`. -/
structure PolicyRule where
  APIGroups : List String
  Resources : List String
  Verbs : List String
  deriving Repr, DecidableEq

/-- The struct `v1rbac.Role`. -/
structure Role where
  TypeMeta : TypeMeta
  ObjectMeta : ObjectMeta
  Rules : List PolicyRule
  deriving Repr, DecidableEq

/-- The struct `v1rbac.Subject`. -/
structure Subject where
  Kind : String
  Name : String
  deriving Repr, DecidableEq

/-- The struct `v1rbac.RoleRef`. -/
structure RoleRef where
  APIGroup : String
  Kind : String
  Name : String
  deriving Repr, DecidableEq

/-- The struct `v1rbac.RoleBinding`. -/
structure RoleBinding where
  TypeMeta : TypeMeta
  ObjectMeta : ObjectMeta
  Subjects : List Subject
  RoleRef : RoleRef
  deriving Repr, DecidableEq

/-- An object built by one of the packages `tasks`, `triggers`, `eventlisteners`,
`routes` or by one of the pipeline builders, none of which this development
looks into: its metadata and its remaining content as text. -/
structure Generated where
  TypeMeta : TypeMeta
  ObjectMeta : ObjectMeta
  Spec : String
  deriving Repr, DecidableEq

/-- An element of the slice `outputs` of `Bootstrap`, by its Go type. -/
inductive Resource where
  | Namespace (n : Namespace)
  | Secret (s : Secret)
  | ServiceAccount (sa : ServiceAccount)
  | Role (r : Role)
  | RoleBinding (rb : RoleBinding)
  | Task (t : Generated)
  | TriggerTemplate (t : Generated)
  | TriggerBinding (b : Generated)
  | Pipeline (p : Generated)
  | EventListener (l : Generated)
  | Route (r : Generated)
  deriving Repr, DecidableEq

/-! ## Builders of the package that the two source files call -/

/-- Modelled from the spec: `meta.NamespacedName` is absent; a namespaced name is
"namespace + name". -/
def metaNamespacedName (ns name : String) : NamespacedName :=
  { Namespace := ns, Name := name }

/-- Modelled from the spec: `createTypeMeta` is absent; a builder "stamps a fixed,
versioned kind/API-group tag". -/
def createTypeMeta (kind apiVersion : String) : TypeMeta :=
  { Kind := kind, APIVersion := apiVersion }

/-- Modelled from the spec: `createObjectMeta` is absent; the metadata block is
"derived solely from the namespaced name argument". -/
def createObjectMeta (name : NamespacedName) : ObjectMeta :=
  { Name := name.Name, Namespace := name.Namespace }

/-- Modelled from the spec: `namespaceNames` is absent; the mapping "from logical
role (`dev`, `stage`, `cicd`, `argocd`) to concrete namespace name = `prefix +
role`".  A Go map is modelled by its list of entries. -/
def namespaceNames (p : String) : List (String × String) :=
  [("dev", p ++ "dev"), ("stage", p ++ "stage"), ("cicd", p ++ "cicd"), ("argocd", p ++ "argocd")]

/-- The Go map index `m[key]`: the zero value `""` for a missing key. -/
def index (m : List (String × String)) (key : String) : String :=
  match m.lookup key with
  | some v => v
  | none => ""

/-- The function `values`.  Go leaves the order of a `range` over a map open;
the model ranges in the order of the entries. -/
def values (m : List (String × String)) : List String :=
  m.map Prod.snd

/-- Modelled from the spec: `createNamespace` is absent; a Namespace resource of
the given name. -/
def createNamespace (name : String) : Namespace :=
  { TypeMeta := createTypeMeta "Namespace" "v1",
    ObjectMeta := { Name := name, Namespace := "" } }

/-- Modelled from the spec: `createNamespaces` is absent; "emit namespace
resources for every role". -/
def createNamespaces (names : List String) : List Namespace :=
  names.map createNamespace

/-! ## service_rolebinding.go -/

/-- The function `createServiceAccount` of service_rolebinding.go. -/
def createServiceAccount (saName : NamespacedName) (secretName : String) : ServiceAccount :=
  { TypeMeta := createTypeMeta "ServiceAccount" "v1",
    ObjectMeta := createObjectMeta saName,
    Secrets := [{ Name := secretName }] }

/-- The function `createRoleBinding`. -/
def createRoleBinding (name : NamespacedName) (sa : ServiceAccount) (roleKind roleName : String) :
    RoleBinding :=
  { TypeMeta := createTypeMeta "RoleBinding" "rbac.authorization.k8s.io/v1",
    ObjectMeta := createObjectMeta name,
    Subjects := [{ Kind := sa.TypeMeta.Kind, Name := sa.ObjectMeta.Name }],
    RoleRef := { APIGroup := "rbac.authorization.k8s.io", Kind := roleKind, Name := roleName } }

/-- The function `createRole`. -/
def createRole (roleName : NamespacedName) (policyRules : List PolicyRule) : Role :=
  { TypeMeta := createTypeMeta "Role" "rbac.authorization.k8s.io/v1",
    ObjectMeta := createObjectMeta roleName,
    Rules := policyRules }

/-! ## bootstrap.go: names, collaborators and helpers -/

def dockerSecretName : String := "regcred"
def saName : String := "pipeline"
def roleName : String := "tekton-triggers-openshift-demo"
def roleBindingName : String := "tekton-triggers-openshift-binding"
def devRoleBindingName : String := "pipeline-admin-dev"
def stageRoleBindingName : String := "pipeline-admin-stage"

/-- The variable `rules`: PolicyRules to be bound to the service account. -/
def rules : List PolicyRule :=
  [ { APIGroups := ["tekton.dev"],
      Resources := ["eventlisteners", "triggerbindings", "triggertemplates", "tasks", "taskruns"],
      Verbs := ["get"] },
    { APIGroups := ["tekton.dev"],
      Resources := ["pipelineruns", "pipelineresources", "taskruns"],
      Verbs := ["create"] } ]

/-- A Tekton checker, by what its method `checkInstall` returns. -/
structure TektonChecker where
  checkInstall : Except String Bool

/-- A cluster client, by what the namespace-existence query answers through it. -/
structure ClientSet where
  namespaceExists : String → Except String Bool

/-- An opened file, by what reading it to the end returns. -/
structure File where
  readAll : Except String String

/-- The world outside the package, as `Bootstrap` meets it: the results of the
calls that leave the program. -/
structure Collaborators where
  newTektonChecker : Except String TektonChecker
  getClientSet : Except String ClientSet
  homedirExpand : String → Except String String
  osOpen : String → Except String File
  readToken : String → Except String String
  yamlMarshal : Resource → Except String String

/-- The builders of the packages `tasks`, `triggers`, `eventlisteners`, `routes`
and the four pipeline builders, which are not part of the two source files: taken
as parameters.  `saSecretName` is the second argument of `createServiceAccount`,
which the call in `Bootstrap` does not show. -/
structure Generators where
  saSecretName : String
  tasksGenerate : String → String → Bool → List Generated
  triggersGenerateTemplates : String → String → String → List Generated
  triggersGenerateBindings : String → List Generated
  createDevCIPipeline : NamespacedName → Generated
  createStageCIPipeline : NamespacedName → String → Generated
  createDevCDPipeline : NamespacedName → String → String → Generated
  createStageCDPipeline : NamespacedName → String → Generated
  eventlistenersGenerate : String → String → String → Generated
  routesGenerate : String → Generated

/-- An `io.Writer` over sink states `σ`: a write gives the next state of the sink
and the error, if any. -/
structure Writer (σ : Type) where
  Write : σ → String → σ × Option String

/-- Modelled from the spec: `checkNamespace` is absent; the collaborator
"`namespaceExists(client, name) -> (bool, error)`". -/
def checkNamespace (clientSet : ClientSet) (name : String) : Except String Bool :=
  clientSet.namespaceExists name

/-- Modelled from the spec: `createOpaqueSecret` is absent; a Secret whose kind tag
is fixed and whose metadata is "derived solely from the namespaced name argument",
or the error of reading the data. -/
def createOpaqueSecret (c : Collaborators) (name : NamespacedName) (data : String) :
    Except String Secret :=
  match c.readToken data with
  | .error e => .error e
  | .ok d =>
    .ok { TypeMeta := createTypeMeta "Secret" "v1",
          ObjectMeta := createObjectMeta name,
          SecretType := "Opaque",
          Data := [("token", d)] }

/-- Modelled from the spec: `createDockerConfigSecret` is absent; a Secret whose
kind tag is fixed and whose metadata is "derived solely from the namespaced name
argument", or the error of reading the credential file. -/
def createDockerConfigSecret (name : NamespacedName) (f : File) : Except String Secret :=
  match f.readAll with
  | .error e => .error e
  | .ok d =>
    .ok { TypeMeta := createTypeMeta "Secret" "v1",
          ObjectMeta := createObjectMeta name,
          SecretType := "kubernetes.io/dockerconfigjson",
          Data := [(".dockerconfigjson", d)] }

/-- Modelled from the spec: `addSecretToSA` is absent; "attach it to the service
account". -/
def addSecretToSA (sa : ServiceAccount) (secretName : String) : ServiceAccount :=
  { sa with Secrets := sa.Secrets ++ [{ Name := secretName }] }

/-- The function `createRoleBindings`. -/
def createRoleBindings (ns : List (String × String)) (sa : ServiceAccount) : List Resource :=
  let out : List Resource := []
  let role := createRole (metaNamespacedName (index ns "cicd") roleName) rules
  let out := out ++ [Resource.Role role]
  let out := out ++ [Resource.RoleBinding
    (createRoleBinding (metaNamespacedName (index ns "cicd") roleBindingName) sa
      role.TypeMeta.Kind role.ObjectMeta.Name)]
  let out := out ++ [Resource.RoleBinding
    (createRoleBinding (metaNamespacedName (index ns "cicd") "edit-clusterrole-binding") sa
      "ClusterRole" "edit")]
  let out := out ++ [Resource.RoleBinding
    (createRoleBinding (metaNamespacedName (index ns "dev") devRoleBindingName) sa
      "ClusterRole" "edit")]
  let out := out ++ [Resource.RoleBinding
    (createRoleBinding (metaNamespacedName (index ns "stage") stageRoleBindingName) sa
      "ClusterRole" "edit")]
  out

/-- The function `createPipelines`. -/
def createPipelines (g : Generators) (ns : List (String × String)) (deploymentPath : String) :
    List Resource :=
  let out : List Resource := []
  let out := out ++ [Resource.Pipeline
    (g.createDevCIPipeline (metaNamespacedName (index ns "cicd") "dev-ci-pipeline"))]
  let out := out ++ [Resource.Pipeline
    (g.createStageCIPipeline (metaNamespacedName (index ns "cicd") "stage-ci-pipeline")
      (index ns "stage"))]
  let out := out ++ [Resource.Pipeline
    (g.createDevCDPipeline (metaNamespacedName (index ns "cicd") "dev-cd-pipeline")
      deploymentPath (index ns "dev"))]
  let out := out ++ [Resource.Pipeline
    (g.createStageCDPipeline (metaNamespacedName (index ns "cicd") "stage-cd-pipeline")
      (index ns "stage"))]
  out

/-- The function `createDockerSecret`. -/
def createDockerSecret (c : Collaborators) (quayIOAuthFilename ns : String) :
    Except String Secret :=
  match c.homedirExpand quayIOAuthFilename with
  | .error e => .error ("failed to generate path to file: " ++ e)
  | .ok authJSONPath =>
    match c.osOpen authJSONPath with
    | .error e => .error ("failed to read docker file \x27" ++ authJSONPath ++ "\x27 : " ++ e)
    | .ok f =>
      match createDockerConfigSecret (metaNamespacedName ns dockerSecretName) f with
      | .error e => .error e
      | .ok dockerSecret => .ok dockerSecret

/-- The function `checkTektonInstall`: create and invoke a Tekton checker. -/
def checkTektonInstall (c : Collaborators) : Except String Bool :=
  match c.newTektonChecker with
  | .error e => .error e
  | .ok tektonChecker => tektonChecker.checkInstall

/-- The function `marshalOutputs`, `yamlMarshal` being what `yaml.Marshal`
returns: the state of the sink after the call and the error returned, `none` for
`nil`. -/
def marshalOutputs {σ : Type} (yamlMarshal : Resource → Except String String) (w : Writer σ)
    (out : σ) : List Resource → σ × Option String
  | [] => (out, none)
  | r :: outputs =>
    match yamlMarshal r with
    | .error e => (out, some ("failed to marshal data: " ++ e))
    | .ok data =>
      match w.Write out (data ++ "---\n") with
      | (out1, some e) => (out1, some ("failed to write data: " ++ e))
      | (out1, none) => marshalOutputs yamlMarshal w out1 outputs

/-! ## bootstrap.go: Bootstrap -/

/-- The first statement of `Bootstrap`, the installation check: the error it
returns with, or `none` when the run goes on. -/
def installCheck (c : Collaborators) (o : BootstrapOptions) : Option String :=
  if !o.SkipChecks then
    match checkTektonInstall c with
    | .error e => some ("failed to run Tekton Pipelines installation check: " ++ e)
    | .ok installed =>
      if !installed then
        some "failed due to Tekton Pipelines or Triggers are not installed"
      else none
  else none

/-- The body of `Bootstrap` before its last statement: the error it returns with,
or the slice `outputs` that it hands to `marshalOutputs`.  The index
`strings.Split(imageRepo, "/")[1]` is read with `get!`.  The call of
`createServiceAccount` shows one argument where service_rolebinding.go declares
two: the second is `g.saSecretName`. -/
def bootstrapOutputs (g : Generators) (c : Collaborators) (o : BootstrapOptions) :
    Except String (List Resource) :=
  match installCheck c o with
  | some e => .error e
  | none =>
  -- Validate image repo
  match validateImageRepo o with
  | .error e => .error e
  | .ok (isInternalRegistry, imageRepo) =>
  let outputs : List Resource := []
  let namespaces := namespaceNames o.Prefix
  let outputs := outputs ++ (createNamespaces (values namespaces)).map Resource.Namespace
  match createOpaqueSecret c (metaNamespacedName (index namespaces "cicd") "github-auth")
      o.GithubToken with
  | .error e => .error ("failed to generate path to file: " ++ e)
  | .ok githubAuth =>
  let outputs := outputs ++ [Resource.Secret githubAuth]
  -- Create Tasks
  let tasks := g.tasksGenerate githubAuth.ObjectMeta.Name (index namespaces "cicd")
    isInternalRegistry
  let outputs := outputs ++ tasks.map Resource.Task
  -- Create trigger templates
  let templates := g.triggersGenerateTemplates (index namespaces "cicd") saName imageRepo
  let outputs := outputs ++ templates.map Resource.TriggerTemplate
  -- Create trigger bindings
  let bindings := g.triggersGenerateBindings (index namespaces "cicd")
  let outputs := outputs ++ bindings.map Resource.TriggerBinding
  -- Create Pipelines
  let outputs := outputs ++ createPipelines g namespaces o.DeploymentPath
  -- Create Event Listener
  let eventListener := g.eventlistenersGenerate o.GitRepo (index namespaces "cicd") saName
  let outputs := outputs ++ [Resource.EventListener eventListener]
  -- Create route
  let route := g.routesGenerate (index namespaces "cicd")
  let outputs := outputs ++ [Resource.Route route]
  -- Create Service Account
  let sa := createServiceAccount (metaNamespacedName (index namespaces "cicd") saName)
    g.saSecretName
  let branch : Except String (List Resource) :=
    if isInternalRegistry then
      -- add sa to outputs
      let outputs := outputs ++ [Resource.ServiceAccount sa]
      -- Provide access to service account for using internal registry
      let internalRegistryNamespace := (Split imageRepo '/').get! 1
      match c.getClientSet with
      | .error e => .error e
      | .ok clientSet =>
        match checkNamespace clientSet internalRegistryNamespace with
        | .error e => .error e
        | .ok namespaceExists =>
          let outputs :=
            if !namespaceExists then
              outputs ++ [Resource.Namespace (createNamespace internalRegistryNamespace)]
            else outputs
          .ok (outputs ++ [Resource.RoleBinding
            (createRoleBinding
              (metaNamespacedName internalRegistryNamespace "internal-registry-binding")
              sa "ClusterRole" "edit")])
    else
      -- Add secret to service account if external registry is used
      match createDockerSecret c o.QuayAuthFileName (index namespaces "cicd") with
      | .error e => .error e
      | .ok dockerSecret =>
        let outputs := outputs ++ [Resource.Secret dockerSecret]
        -- add secret and sa to outputs
        .ok (outputs ++ [Resource.ServiceAccount (addSecretToSA sa dockerSecretName)])
  match branch with
  | .error e => .error e
  | .ok outputs =>
    --  Create Role, Role Bindings, and ClusterRole Bindings
    .ok (outputs ++ createRoleBindings namespaces sa)

/-- The function `Bootstrap`, writing to the sink `stdout` through `w`: the state
of the sink after the run and the error returned, `none` for `nil`. -/
def Bootstrap {σ : Type} (g : Generators) (c : Collaborators) (w : Writer σ) (stdout : σ)
    (o : BootstrapOptions) : σ × Option String :=
  match bootstrapOutputs g c o with
  | .error e => (stdout, some e)
  | .ok outputs => marshalOutputs c.yamlMarshal w stdout outputs

/-- Whether the list holds a Secret named `regcred`, the docker pull secret. -/
def hasDockerSecret (outputs : List Resource) : Bool :=
  outputs.any fun r =>
    match r with
    | .Secret s => s.ObjectMeta.Name == dockerSecretName
    | _ => false

/-- Whether the list holds a role binding named `internal-registry-binding`. -/
def hasInternalRegistryBinding (outputs : List Resource) : Bool :=
  outputs.any fun r =>
    match r with
    | .RoleBinding rb => rb.ObjectMeta.Name == "internal-registry-binding"
    | _ => false

/-- Options with the given image repo and internal registry hostname, the other
fields empty and the installation check skipped or not. -/
def optionsOf (imageRepo hostname : String) (skipChecks : Bool) : BootstrapOptions :=
  { DeploymentPath := "", GithubToken := "", GitRepo := "",
    InternalRegistryHostname := hostname, ImageRepo := imageRepo, Prefix := "",
    QuayAuthFileName := "", QuayUserName := "", SkipChecks := skipChecks }

/-! ## Example collaborators -/

/-- Generators that build nothing but objects without content. -/
def exampleGenerators : Generators :=
  let blank : Generated :=
    { TypeMeta := createTypeMeta "" "", ObjectMeta := { Name := "", Namespace := "" }, Spec := "" }
  { saSecretName := "",
    tasksGenerate := fun _ _ _ => [],
    triggersGenerateTemplates := fun _ _ _ => [],
    triggersGenerateBindings := fun _ => [],
    createDevCIPipeline := fun _ => blank,
    createStageCIPipeline := fun _ _ => blank,
    createDevCDPipeline := fun _ _ _ => blank,
    createStageCDPipeline := fun _ _ => blank,
    eventlistenersGenerate := fun _ _ _ => blank,
    routesGenerate := fun _ => blank }

/-- Collaborators all of whose calls succeed: Tekton installed or not as given, no
namespace existing yet, every resource marshalled to one line. -/
def exampleCollaborators (installed : Bool) : Collaborators :=
  { newTektonChecker := .ok { checkInstall := .ok installed },
    getClientSet := .ok { namespaceExists := fun _ => .ok false },
    homedirExpand := fun f => .ok f,
    osOpen := fun _ => .ok { readAll := .ok "auth" },
    readToken := fun t => .ok t,
    yamlMarshal := fun _ => .ok "kind: Resource\n" }

/-- Collaborators as `exampleCollaborators true`, but the cluster client cannot be
obtained. -/
def failingCollaborators : Collaborators :=
  { exampleCollaborators true with getClientSet := .error "no cluster" }

/-- A sink that accepts every write: its state is the text written so far. -/
def stringWriter : Writer String :=
  { Write := fun out data => (out ++ data, none) }

/-- A sink of bounded room: a write that fits is appended, one that does not fit
fails and leaves the sink as it was. -/
def boundedWriter (room : Nat) : Writer String :=
  { Write := fun out data =>
      if out.length + data.length ≤ room then (out ++ data, none)
      else (out, some "no space left on device") }

/-- The service accounts of the list, in order. -/
def serviceAccounts (outputs : List Resource) : List ServiceAccount :=
  outputs.filterMap fun r =>
    match r with
    | .ServiceAccount sa => some sa
    | _ => none

/-- Whether the list holds a Namespace resource of the given name. -/
def hasNamespace (outputs : List Resource) (name : String) : Bool :=
  outputs.any fun r =>
    match r with
    | .Namespace n => n.ObjectMeta.Name == name
    | _ => false

/-- Collaborators as `exampleCollaborators true`, but every namespace asked for
exists already. -/
def existingCollaborators : Collaborators :=
  { exampleCollaborators true with getClientSet := .ok { namespaceExists := fun _ => .ok true } }

/-! ## Lemmas on splitting -/

theorem splitChars_ne_nil (sep : Char) (cs : List Char) : splitChars sep cs ≠ [] := by
  induction cs with
  | nil => simp [splitChars]
  | cons c cs ih =>
    unfold splitChars
    split
    · simp
    · split <;> simp

theorem splitChars_append_sep (sep : Char) (h r : List Char) (hs : sep ∉ h) :
    splitChars sep (h ++ sep :: r) = h :: splitChars sep r := by
  induction h with
  | nil => simp [splitChars]
  | cons c cs ih =>
    have hc : c ≠ sep := fun e => hs (by simp [e])
    have ht : sep ∉ cs := fun e => hs (by simp [e])
    rw [List.cons_append, splitChars, if_neg hc, ih ht]

theorem Split_append_sep (h r : String) (hs : '/' ∉ h.data) :
    Split (h ++ "/" ++ r) '/' = h :: Split r '/' := by
  have e : (h ++ "/" ++ r).data = h.data ++ '/' :: r.data := by
    simp [String.data_append]
  simp [Split, e, splitChars_append_sep _ _ _ hs]

/-! ## validateImageRepo -/

/-- C1: when the image repo splits on "/" into exactly two components, neither
blank after trimming, `validateImageRepo` fails if the first is "docker.io" or
"quay.io", and otherwise succeeds with isInternal = true and the repo
InternalRegistryHostname + "/" + ImageRepo. -/
theorem validateImageRepo_two_components (o : BootstrapOptions) (a b : String)
    (h : Split o.ImageRepo '/' = [a, b]) (ha : TrimSpace a ≠ "") (hb : TrimSpace b ≠ "") :
    ((a = "docker.io" ∨ a = "quay.io") →
      validateImageRepo o = .error (errorMsg o.ImageRepo)) ∧
    (¬ (a = "docker.io" ∨ a = "quay.io") →
      validateImageRepo o = .ok (true, o.InternalRegistryHostname ++ "/" ++ o.ImageRepo)) := by
  constructor
  · intro hr
    simp [validateImageRepo, h, ha, hb, hr]
  · intro hr
    simp [validateImageRepo, h, ha, hb, hr]

theorem validateImageRepo_two_components_witness :
    validateImageRepo (optionsOf "project/app" "registry" true) =
      .ok (true, "registry" ++ "/" ++ "project/app") :=
  (validateImageRepo_two_components (optionsOf "project/app" "registry" true)
    "project" "app" (by rfl) (by decide) (by decide)).2 (by decide)

/-- C2: when the image repo splits on "/" into exactly three components, none
blank after trimming, `validateImageRepo` succeeds, returns the image repo
unchanged, and isInternal is true exactly when the first component equals
InternalRegistryHostname. -/
theorem validateImageRepo_three_components (o : BootstrapOptions) (a b d : String)
    (h : Split o.ImageRepo '/' = [a, b, d]) (ha : TrimSpace a ≠ "") (hb : TrimSpace b ≠ "")
    (hd : TrimSpace d ≠ "") :
    ∃ isInternal, validateImageRepo o = .ok (isInternal, o.ImageRepo) ∧
      (isInternal = true ↔ a = o.InternalRegistryHostname) := by
  refine ⟨a == o.InternalRegistryHostname, ?_, by simp⟩
  simp [validateImageRepo, h, ha, hb, hd]

theorem validateImageRepo_three_components_witness :
    ∃ isInternal, validateImageRepo (optionsOf "quay.io/user/app" "registry" true) =
        .ok (isInternal, "quay.io/user/app") ∧
      (isInternal = true ↔ "quay.io" = "registry") :=
  validateImageRepo_three_components (optionsOf "quay.io/user/app" "registry" true)
    "quay.io" "user" "app" (by rfl) (by decide) (by decide) (by decide)

/-- C3: an image repo whose split on "/" has fewer than 2 or more than 3
components is rejected by `validateImageRepo`, whatever the
InternalRegistryHostname. -/
theorem validateImageRepo_bad_count (o : BootstrapOptions)
    (h : (Split o.ImageRepo '/').length < 2 ∨ 3 < (Split o.ImageRepo '/').length) :
    validateImageRepo o = .error (errorMsg o.ImageRepo) := by
  unfold validateImageRepo
  rcases h with h | h
  · simp [h]
  · have h2 : ¬ (Split o.ImageRepo '/').length < 2 := by omega
    have h3 : (Split o.ImageRepo '/').length ≠ 2 := by omega
    have h4 : (Split o.ImageRepo '/').length ≠ 3 := by omega
    simp only [h2, h3, h4, if_false]
    split <;> rfl

theorem validateImageRepo_bad_count_witness :
    validateImageRepo (optionsOf "a/b/c/d" "a" true) = .error (errorMsg "a/b/c/d") ∧
    validateImageRepo (optionsOf "abc" "a" true) = .error (errorMsg "abc") :=
  ⟨validateImageRepo_bad_count (optionsOf "a/b/c/d" "a" true) (Or.inr (by decide)),
   validateImageRepo_bad_count (optionsOf "abc" "a" true) (Or.inl (by decide))⟩

/-- C4: an image repo with a slash-separated component that is empty or only
white space is rejected by `validateImageRepo`, whatever the number of
components. -/
theorem validateImageRepo_blank_component (o : BootstrapOptions)
    (h : ∃ v ∈ Split o.ImageRepo '/', TrimSpace v = "") :
    validateImageRepo o = .error (errorMsg o.ImageRepo) := by
  obtain ⟨v, hv, hb⟩ := h
  have hany : (Split o.ImageRepo '/').any (fun v => TrimSpace v == "") = true := by
    rw [List.any_eq_true]
    exact ⟨v, hv, by simp [hb]⟩
  unfold validateImageRepo
  simp only [hany, if_true]
  split <;> rfl

theorem validateImageRepo_blank_component_witness :
    validateImageRepo (optionsOf "a/ /b" "a" true) = .error (errorMsg "a/ /b") :=
  validateImageRepo_blank_component (optionsOf "a/ /b" "a" true)
    ⟨" ", by decide, by decide⟩


/-- C5, as the claim states it, fails: "docker.io/app" has two components, none
blank, and is rejected. -/
theorem validateImageRepo_accepts_iff_counterexample :
    (Split "docker.io/app" '/').length = 2 ∧
    (∀ v ∈ Split "docker.io/app" '/', TrimSpace v ≠ "") ∧
    validateImageRepo (optionsOf "docker.io/app" "registry" true) =
      .error (errorMsg "docker.io/app") := by
  refine ⟨by decide, by decide, by rfl⟩

/-- C5 amended: `validateImageRepo` succeeds exactly on the image repos with 3
components, or with 2 components the first of which is neither "docker.io" nor
"quay.io", no component being blank; every other image repo is rejected with the
malformed-repo error. -/
theorem validateImageRepo_accepts_iff (o : BootstrapOptions) :
    ((∃ r, validateImageRepo o = .ok r) ↔
      (((Split o.ImageRepo '/').length = 3 ∨
        ((Split o.ImageRepo '/').length = 2 ∧
          (Split o.ImageRepo '/').head? ≠ some "docker.io" ∧
          (Split o.ImageRepo '/').head? ≠ some "quay.io")) ∧
       ∀ v ∈ Split o.ImageRepo '/', TrimSpace v ≠ "")) ∧
    ((¬ ∃ r, validateImageRepo o = .ok r) →
      validateImageRepo o = .error (errorMsg o.ImageRepo)) := by
  unfold validateImageRepo
  generalize Split o.ImageRepo '/' = comps
  by_cases hb : comps.any (fun v => TrimSpace v == "") = true
  · have hb2 : ¬ ∀ v ∈ comps, TrimSpace v ≠ "" := by
      rw [List.any_eq_true] at hb
      obtain ⟨v, hv, hv2⟩ := hb
      intro hall
      exact hall v hv (by simpa using hv2)
    simp only [hb, if_true]
    constructor
    · constructor
      · rintro ⟨r, hr⟩
        split at hr <;> cases hr
      · rintro ⟨_, h2⟩
        exact absurd h2 hb2
    · intro _
      split <;> rfl
  · have hb2 : ∀ v ∈ comps, TrimSpace v ≠ "" := by
      intro v hv hv2
      apply hb
      rw [List.any_eq_true]
      exact ⟨v, hv, by simp [hv2]⟩
    match comps, hb2 with
    | [], _ => simp
    | [a], _ => simp
    | [a, b], hb2 =>
      have ha := hb2 a (by simp)
      have hb3 := hb2 b (by simp)
      by_cases h1 : a = "docker.io" <;> by_cases h2 : a = "quay.io" <;>
        simp [ha, hb3, h1, h2]
    | [a, b, d], hb2 =>
      have ha := hb2 a (by simp)
      have hb3 := hb2 b (by simp)
      have hd := hb2 d (by simp)
      simp [ha, hb3, hd]
    | a :: b :: d :: e :: rest, hb2 =>
      simp only [List.length_cons]
      have h1 : ¬ (rest.length + 1 + 1 + 1 + 1 < 2) := by omega
      have h2 : ¬ (rest.length + 1 + 1 + 1 + 1 = 2) := by omega
      have h3 : ¬ (rest.length + 1 + 1 + 1 + 1 = 3) := by omega
      simp only [h1, h2, h3, if_false]
      constructor
      · constructor
        · rintro ⟨r, hr⟩
          split at hr <;> cases hr
        · rintro ⟨h4 | ⟨h4, _⟩, _⟩ <;> simp at h4
      · intro _
        split <;> rfl

/-- C6, as the claim states it, fails: with the hostname "x/y" the image repo
"p/a" is accepted and its normalized repo has four components. -/
theorem validateImageRepo_normalized_counterexample :
    validateImageRepo (optionsOf "p/a" "x/y" true) = .ok (true, "x/y/p/a") ∧
    (Split "x/y/p/a" '/').length = 4 := by
  exact ⟨by rfl, by decide⟩

/-- C6 amended: when InternalRegistryHostname contains no "/", or the image repo
has three components, every success of `validateImageRepo` returns a normalized
repo of exactly 3 slash-separated components, and isInternal is true if and only
if the first of them equals InternalRegistryHostname. -/
theorem validateImageRepo_normalized (o : BootstrapOptions) (isInternal : Bool) (repo : String)
    (hs : '/' ∉ o.InternalRegistryHostname.data ∨ (Split o.ImageRepo '/').length = 3)
    (h : validateImageRepo o = .ok (isInternal, repo)) :
    (Split repo '/').length = 3 ∧
    (isInternal = true ↔ (Split repo '/').head? = some o.InternalRegistryHostname) := by
  unfold validateImageRepo at h
  generalize hc : Split o.ImageRepo '/' = comps at h hs
  match comps, hc with
  | [], _ => simp at h
  | [a], _ => simp at h
  | [a, b], hc =>
    have hs : '/' ∉ o.InternalRegistryHostname.data := by
      rcases hs with hs | hs
      · exact hs
      · simp at hs
    simp only [List.length_cons, List.length_nil] at h
    split at h
    · cases h
    · split at h
      · cases h
      · split at h
        · split at h
          · cases h
          · injection h with h
            injection h with h1 h2
            subst h1 h2
            rw [Split_append_sep _ _ hs, hc]
            simp
        · simp at *
  | [a, b, d], hc =>
    simp only [List.length_cons, List.length_nil] at h
    split at h
    · cases h
    · split at h
      · cases h
      · split at h
        · simp at *
        · split at h
          · injection h with h
            injection h with h1 h2
            subst h1 h2
            rw [hc]
            simp
          · cases h
  | a :: b :: d :: e :: rest, _ =>
    simp only [List.length_cons] at h
    have h1 : ¬ (rest.length + 1 + 1 + 1 + 1 < 2) := by omega
    have h2 : ¬ (rest.length + 1 + 1 + 1 + 1 = 2) := by omega
    have h3 : ¬ (rest.length + 1 + 1 + 1 + 1 = 3) := by omega
    simp only [h1, h2, h3, if_false] at h
    split at h <;> cases h

theorem validateImageRepo_normalized_witness :
    (Split "registry/project/app" '/').length = 3 ∧
    (true = true ↔ (Split "registry/project/app" '/').head? = some "registry") :=
  validateImageRepo_normalized (optionsOf "project/app" "registry" true) true
    "registry/project/app" (Or.inl (by decide)) (by rfl)

/-- C7, as the claim states it, fails: "image/repo" is classified internal, with
the hostname empty and with a hostname that does not occur in the repo. -/
theorem validateImageRepo_image_repo_counterexample :
    validateImageRepo (optionsOf "image/repo" "" true) = .ok (true, "/image/repo") ∧
    validateImageRepo (optionsOf "image/repo" "registry.example.com" true) =
      .ok (true, "registry.example.com/image/repo") := by
  exact ⟨by rfl, by rfl⟩

/-- C7 amended: for the image repo "image/repo" and every internal registry
hostname, `validateImageRepo` succeeds with isInternal = true and the normalized
repo hostname + "/image/repo". -/
theorem validateImageRepo_image_repo (o : BootstrapOptions) :
    validateImageRepo { o with ImageRepo := "image/repo" } =
      .ok (true, o.InternalRegistryHostname ++ "/" ++ "image/repo") := by
  have hc : Split "image/repo" '/' = ["image", "repo"] := by rfl
  have h1 : TrimSpace "image" ≠ "" := by decide
  have h2 : TrimSpace "repo" ≠ "" := by decide
  have h3 : ("image" == "docker.io") = false := by decide
  have h4 : ("image" == "quay.io") = false := by decide
  simp [validateImageRepo, hc, h1, h2, h3, h4]

/-! ## Bootstrap -/

theorem hasDockerSecret_iff (outputs : List Resource) :
    hasDockerSecret outputs = true ↔
      ∃ s, Resource.Secret s ∈ outputs ∧ s.ObjectMeta.Name = dockerSecretName := by
  unfold hasDockerSecret
  rw [List.any_eq_true]
  constructor
  · rintro ⟨r, hr, h⟩
    cases r <;> simp at h
    exact ⟨_, hr, h⟩
  · rintro ⟨s, hs, h⟩
    exact ⟨_, hs, by simp [h]⟩

theorem hasDockerSecret_eq_false_iff (outputs : List Resource) :
    hasDockerSecret outputs = false ↔
      ∀ s, Resource.Secret s ∈ outputs → s.ObjectMeta.Name ≠ dockerSecretName := by
  rw [← Bool.not_eq_true, hasDockerSecret_iff]
  constructor
  · intro h s hs hn
    exact h ⟨s, hs, hn⟩
  · rintro h ⟨s, hs, hn⟩
    exact h s hs hn

theorem hasInternalRegistryBinding_iff (outputs : List Resource) :
    hasInternalRegistryBinding outputs = true ↔
      ∃ rb, Resource.RoleBinding rb ∈ outputs ∧
        rb.ObjectMeta.Name = "internal-registry-binding" := by
  unfold hasInternalRegistryBinding
  rw [List.any_eq_true]
  constructor
  · rintro ⟨r, hr, h⟩
    cases r <;> simp at h
    exact ⟨_, hr, h⟩
  · rintro ⟨s, hs, h⟩
    exact ⟨_, hs, by simp [h]⟩

theorem hasInternalRegistryBinding_eq_false_iff (outputs : List Resource) :
    hasInternalRegistryBinding outputs = false ↔
      ∀ rb, Resource.RoleBinding rb ∈ outputs →
        rb.ObjectMeta.Name ≠ "internal-registry-binding" := by
  rw [← Bool.not_eq_true, hasInternalRegistryBinding_iff]
  constructor
  · intro h s hs hn
    exact h ⟨s, hs, hn⟩
  · rintro h ⟨s, hs, hn⟩
    exact h s hs hn

theorem createOpaqueSecret_ok (c : Collaborators) (name : NamespacedName) (data : String)
    (s : Secret) (h : createOpaqueSecret c name data = .ok s) :
    s.ObjectMeta = createObjectMeta name := by
  unfold createOpaqueSecret at h
  split at h
  · cases h
  · injection h with h
    subst h
    rfl

theorem createDockerSecret_ok (c : Collaborators) (file ns : String) (s : Secret)
    (h : createDockerSecret c file ns = .ok s) :
    s.ObjectMeta = createObjectMeta (metaNamespacedName ns dockerSecretName) := by
  unfold createDockerSecret at h
  split at h
  · cases h
  · split at h
    · cases h
    · split at h
      · cases h
      · rename_i d hd
        injection h with h
        subst h
        unfold createDockerConfigSecret at hd
        split at hd
        · cases hd
        · injection hd with hd
          subst hd
          rfl

theorem bootstrapOutputs_ok (g : Generators) (c : Collaborators) (o : BootstrapOptions)
    (outputs : List Resource) (h : bootstrapOutputs g c o = .ok outputs) :
    ∃ isInternal repo, validateImageRepo o = .ok (isInternal, repo) ∧
      hasInternalRegistryBinding outputs = isInternal ∧
      hasDockerSecret outputs = !isInternal := by
  unfold bootstrapOutputs at h
  split at h
  · cases h
  split at h
  · cases h
  rename_i isInternal repo hv
  refine ⟨isInternal, repo, hv, ?_⟩
  simp only [] at h
  cases hg : createOpaqueSecret c
      (metaNamespacedName (index (namespaceNames o.Prefix) "cicd") "github-auth")
      o.GithubToken with
  | error e => rw [hg] at h; cases h
  | ok githubAuth =>
    rw [hg] at h
    have hga := createOpaqueSecret_ok _ _ _ _ hg
    have hn : githubAuth.ObjectMeta.Name ≠ dockerSecretName := by
      rw [hga]; simp [createObjectMeta, metaNamespacedName, dockerSecretName]
    simp only [] at h
    cases isInternal with
    | true =>
      simp only [if_true] at h
      cases hc : c.getClientSet with
      | error e => rw [hc] at h; cases h
      | ok clientSet =>
        rw [hc] at h
        simp only [] at h
        cases hq : checkNamespace clientSet ((Split repo '/').get! 1) with
        | error e => rw [hq] at h; cases h
        | ok namespaceExists =>
          rw [hq] at h
          simp only [] at h
          injection h with h
          subst h
          rw [Bool.not_true, hasInternalRegistryBinding_iff, hasDockerSecret_eq_false_iff]
          constructor
          · refine ⟨createRoleBinding
              (metaNamespacedName ((Split repo '/').get! 1) "internal-registry-binding")
              (createServiceAccount
                (metaNamespacedName (index (namespaceNames o.Prefix) "cicd") saName) g.saSecretName)
              "ClusterRole" "edit", ?_, rfl⟩
            simp
          · intro s hs
            have hs2 : s = githubAuth := by
              cases namespaceExists <;>
                simpa [createRoleBindings, createPipelines] using hs
            rw [hs2]
            exact hn
    | false =>
      simp only [Bool.false_eq_true, if_false] at h
      cases hd : createDockerSecret c o.QuayAuthFileName
          (index (namespaceNames o.Prefix) "cicd") with
      | error e => rw [hd] at h; cases h
      | ok dockerSecret =>
        rw [hd] at h
        simp only [] at h
        injection h with h
        subst h
        have hdn := createDockerSecret_ok _ _ _ _ hd
        rw [Bool.not_false, hasDockerSecret_iff, hasInternalRegistryBinding_eq_false_iff]
        constructor
        · intro rb hrb
          have h1 : roleBindingName ≠ "internal-registry-binding" := by decide
          have h2 : devRoleBindingName ≠ "internal-registry-binding" := by decide
          have h3 : stageRoleBindingName ≠ "internal-registry-binding" := by decide
          simp [createRoleBindings, createPipelines] at hrb
          rcases hrb with hrb | hrb | hrb | hrb <;> rw [hrb] <;>
            simp [createRoleBinding, createObjectMeta, metaNamespacedName, h1, h2, h3]
        · refine ⟨dockerSecret, by simp, ?_⟩
          rw [hdn]
          rfl

theorem bootstrapOutputs_ok_steps (g : Generators) (c : Collaborators) (o : BootstrapOptions)
    (outputs : List Resource) (h : bootstrapOutputs g c o = .ok outputs) :
    installCheck c o = none ∧
    ∃ isInternal repo, validateImageRepo o = .ok (isInternal, repo) ∧
      (∃ githubAuth, createOpaqueSecret c
        (metaNamespacedName (index (namespaceNames o.Prefix) "cicd") "github-auth")
        o.GithubToken = .ok githubAuth) ∧
      (isInternal = true → ∃ clientSet namespaceExists, c.getClientSet = .ok clientSet ∧
        checkNamespace clientSet ((Split repo '/').get! 1) = .ok namespaceExists) ∧
      (isInternal = false → ∃ dockerSecret, createDockerSecret c o.QuayAuthFileName
        (index (namespaceNames o.Prefix) "cicd") = .ok dockerSecret) := by
  unfold bootstrapOutputs at h
  split at h
  · cases h
  rename_i hi
  refine ⟨hi, ?_⟩
  split at h
  · cases h
  rename_i isInternal repo hv
  refine ⟨isInternal, repo, hv, ?_⟩
  simp only [] at h
  cases hg : createOpaqueSecret c
      (metaNamespacedName (index (namespaceNames o.Prefix) "cicd") "github-auth")
      o.GithubToken with
  | error e => rw [hg] at h; cases h
  | ok githubAuth =>
    rw [hg] at h
    refine ⟨⟨githubAuth, rfl⟩, ?_⟩
    simp only [] at h
    cases isInternal with
    | true =>
      simp only [if_true] at h
      cases hc : c.getClientSet with
      | error e => rw [hc] at h; cases h
      | ok clientSet =>
        rw [hc] at h
        simp only [] at h
        cases hq : checkNamespace clientSet ((Split repo '/').get! 1) with
        | error e => rw [hq] at h; cases h
        | ok namespaceExists =>
          exact ⟨fun _ => ⟨clientSet, namespaceExists, rfl, hq⟩, fun hf => (by cases hf)⟩
    | false =>
      simp only [Bool.false_eq_true, if_false] at h
      cases hd : createDockerSecret c o.QuayAuthFileName
          (index (namespaceNames o.Prefix) "cicd") with
      | error e => rw [hd] at h; cases h
      | ok dockerSecret =>
        exact ⟨fun hf => (by cases hf), fun _ => ⟨dockerSecret, rfl⟩⟩

/-- C8: in every successful run of `Bootstrap` the list handed to the serializer
holds exactly one of the two registry-specific resource sets: the role binding
"internal-registry-binding" and no "regcred" secret when `validateImageRepo`
classified the repo as internal, the "regcred" secret and no
"internal-registry-binding" when it classified it as external. -/
theorem Bootstrap_registry_exclusive {σ : Type} (g : Generators) (c : Collaborators)
    (w : Writer σ) (stdout : σ) (o : BootstrapOptions)
    (h : (Bootstrap g c w stdout o).2 = none) :
    ∃ outputs isInternal repo,
      bootstrapOutputs g c o = .ok outputs ∧
      Bootstrap g c w stdout o = marshalOutputs c.yamlMarshal w stdout outputs ∧
      validateImageRepo o = .ok (isInternal, repo) ∧
      (isInternal = true →
        hasInternalRegistryBinding outputs = true ∧ hasDockerSecret outputs = false) ∧
      (isInternal = false →
        hasDockerSecret outputs = true ∧ hasInternalRegistryBinding outputs = false) := by
  unfold Bootstrap at h ⊢
  cases hb : bootstrapOutputs g c o with
  | error e => rw [hb] at h; cases h
  | ok outputs =>
    obtain ⟨isInternal, repo, hv, h1, h2⟩ := bootstrapOutputs_ok g c o outputs hb
    refine ⟨outputs, isInternal, repo, rfl, rfl, hv, ?_, ?_⟩
    · intro hi
      rw [h1, h2, hi]
      exact ⟨rfl, rfl⟩
    · intro hi
      rw [h1, h2, hi]
      exact ⟨rfl, rfl⟩

theorem Bootstrap_registry_exclusive_witness :
    ∃ outputs isInternal repo,
      bootstrapOutputs exampleGenerators (exampleCollaborators true)
        (optionsOf "quay.io/user/app" "registry" false) = .ok outputs ∧
      Bootstrap exampleGenerators (exampleCollaborators true) stringWriter ""
        (optionsOf "quay.io/user/app" "registry" false) =
        marshalOutputs (exampleCollaborators true).yamlMarshal stringWriter "" outputs ∧
      validateImageRepo (optionsOf "quay.io/user/app" "registry" false) =
        .ok (isInternal, repo) ∧
      (isInternal = true →
        hasInternalRegistryBinding outputs = true ∧ hasDockerSecret outputs = false) ∧
      (isInternal = false →
        hasDockerSecret outputs = true ∧ hasInternalRegistryBinding outputs = false) :=
  Bootstrap_registry_exclusive exampleGenerators (exampleCollaborators true) stringWriter ""
    (optionsOf "quay.io/user/app" "registry" false) (by rfl)

/-- C9: when SkipChecks is false and the checker returns an error or reports
not-installed, `Bootstrap` returns the error of the installation check, whatever
the image repo and the builders are, with no output list built and the sink
untouched; when SkipChecks is true the result of `Bootstrap` is the same whatever
the checker would return. -/
theorem Bootstrap_installation_check {σ : Type} (g : Generators) (c : Collaborators)
    (w : Writer σ) (stdout : σ) (o : BootstrapOptions) :
    (o.SkipChecks = false → ∀ e, checkTektonInstall c = .error e →
      bootstrapOutputs g c o =
        .error ("failed to run Tekton Pipelines installation check: " ++ e) ∧
      Bootstrap g c w stdout o =
        (stdout, some ("failed to run Tekton Pipelines installation check: " ++ e))) ∧
    (o.SkipChecks = false → checkTektonInstall c = .ok false →
      bootstrapOutputs g c o =
        .error "failed due to Tekton Pipelines or Triggers are not installed" ∧
      Bootstrap g c w stdout o =
        (stdout, some "failed due to Tekton Pipelines or Triggers are not installed")) ∧
    (o.SkipChecks = true → ∀ checker : Except String TektonChecker,
      Bootstrap g { c with newTektonChecker := checker } w stdout o =
        Bootstrap g c w stdout o) := by
  refine ⟨?_, ?_, ?_⟩
  · intro hs e he
    have hb : bootstrapOutputs g c o =
        .error ("failed to run Tekton Pipelines installation check: " ++ e) := by
      simp [bootstrapOutputs, installCheck, hs, he]
    exact ⟨hb, by simp [Bootstrap, hb]⟩
  · intro hs he
    have hb : bootstrapOutputs g c o =
        .error "failed due to Tekton Pipelines or Triggers are not installed" := by
      simp [bootstrapOutputs, installCheck, hs, he]
    exact ⟨hb, by simp [Bootstrap, hb]⟩
  · intro hs checker
    have hb : bootstrapOutputs g { c with newTektonChecker := checker } o =
        bootstrapOutputs g c o := by
      simp [bootstrapOutputs, installCheck, hs, createOpaqueSecret, createDockerSecret]
    simp only [Bootstrap, hb]

theorem Bootstrap_installation_check_witness :
    Bootstrap exampleGenerators (exampleCollaborators false) stringWriter ""
        (optionsOf "a/b/c/d" "registry" false) =
      ("", some "failed due to Tekton Pipelines or Triggers are not installed") :=
  ((Bootstrap_installation_check exampleGenerators (exampleCollaborators false) stringWriter ""
    (optionsOf "a/b/c/d" "registry" false)).2.1 (by rfl) (by rfl)).2

/-- C10: if `validateImageRepo` rejects the image repo, or creating the
github-auth secret fails, or (repo classified internal) obtaining the cluster
client or the namespace-existence query fails, or (repo classified external)
creating the docker secret fails, then `Bootstrap` returns an error without
reaching `marshalOutputs`: no output list is built and the sink is left as it
was, whatever the writer. -/
theorem Bootstrap_no_partial_success {σ : Type} (g : Generators) (c : Collaborators)
    (w : Writer σ) (stdout : σ) (o : BootstrapOptions)
    (h : (∃ e, validateImageRepo o = .error e) ∨
      (∃ e, createOpaqueSecret c
        (metaNamespacedName (index (namespaceNames o.Prefix) "cicd") "github-auth")
        o.GithubToken = .error e) ∨
      (∃ repo, validateImageRepo o = .ok (true, repo) ∧
        ((∃ e, c.getClientSet = .error e) ∨
          ∃ clientSet e, c.getClientSet = .ok clientSet ∧
            checkNamespace clientSet ((Split repo '/').get! 1) = .error e)) ∨
      (∃ repo, validateImageRepo o = .ok (false, repo) ∧
        ∃ e, createDockerSecret c o.QuayAuthFileName
          (index (namespaceNames o.Prefix) "cicd") = .error e)) :
    ∃ e, bootstrapOutputs g c o = .error e ∧ Bootstrap g c w stdout o = (stdout, some e) := by
  cases hb : bootstrapOutputs g c o with
  | error e => exact ⟨e, rfl, by simp [Bootstrap, hb]⟩
  | ok outputs =>
    exfalso
    obtain ⟨_, isInternal, repo, hv, ⟨githubAuth, hg⟩, hint, hext⟩ :=
      bootstrapOutputs_ok_steps g c o outputs hb
    rcases h with ⟨e, he⟩ | ⟨e, he⟩ | ⟨repo2, hv2, hc⟩ | ⟨repo2, hv2, e, he⟩
    · rw [hv] at he
      cases he
    · rw [hg] at he
      cases he
    · rw [hv] at hv2
      injection hv2 with hv2
      injection hv2 with hi hr
      subst hi hr
      obtain ⟨clientSet, namespaceExists, hcs, hq⟩ := hint rfl
      rcases hc with ⟨e, he⟩ | ⟨clientSet2, e, hcs2, he⟩
      · rw [hcs] at he
        cases he
      · rw [hcs] at hcs2
        injection hcs2 with hcs2
        subst hcs2
        rw [hq] at he
        cases he
    · rw [hv] at hv2
      injection hv2 with hv2
      injection hv2 with hi hr
      subst hi hr
      obtain ⟨dockerSecret, hd⟩ := hext rfl
      rw [hd] at he
      cases he

theorem Bootstrap_no_partial_success_witness :
    ∃ e, bootstrapOutputs exampleGenerators failingCollaborators
        (optionsOf "project/app" "registry" true) = .error e ∧
      Bootstrap exampleGenerators failingCollaborators stringWriter "kept"
        (optionsOf "project/app" "registry" true) = ("kept", some e) :=
  Bootstrap_no_partial_success exampleGenerators failingCollaborators stringWriter "kept"
    (optionsOf "project/app" "registry" true)
    (Or.inr (Or.inr (Or.inl ⟨"registry/project/app", by rfl, Or.inl ⟨"no cluster", rfl⟩⟩)))

/-! ## marshalOutputs -/

/-- C11: when every resource of the list marshals and the sink accepts every
write, `marshalOutputs` returns no error and the sink has received, after what it
held, the concatenation in list order of each marshalled resource followed by the
separator line "---\n"; the empty list leaves the sink as it was. -/
theorem marshalOutputs_accepting {σ : Type} (yamlMarshal : Resource → Except String String)
    (w : Writer σ) (content : σ → String) (doc : Resource → String)
    (outputs : List Resource) (out : σ)
    (hm : ∀ r ∈ outputs, yamlMarshal r = .ok (doc r))
    (hw : ∀ s data, (w.Write s data).2 = none ∧
      content (w.Write s data).1 = content s ++ data) :
    (marshalOutputs yamlMarshal w out outputs).2 = none ∧
    content (marshalOutputs yamlMarshal w out outputs).1 =
      content out ++ String.join (outputs.map fun r => doc r ++ "---\n") ∧
    marshalOutputs yamlMarshal w out [] = (out, none) := by
  refine ⟨?_, ?_, rfl⟩
  · induction outputs generalizing out with
    | nil => rfl
    | cons r rs ih =>
      have hr := hm r (by simp)
      have hws := (hw out (doc r ++ "---\n")).1
      unfold marshalOutputs
      rw [hr]
      simp only []
      split
      · rename_i heq
        rw [heq] at hws
        cases hws
      · rename_i out1 heq
        exact ih out1 (fun r2 h2 => hm r2 (by simp [h2]))
  · induction outputs generalizing out with
    | nil =>
      apply String.ext
      simp [marshalOutputs]
    | cons r rs ih =>
      have hr := hm r (by simp)
      have hws := hw out (doc r ++ "---\n")
      unfold marshalOutputs
      rw [hr]
      simp only []
      split
      · rename_i heq
        rw [heq] at hws
        cases hws.1
      · rename_i out1 heq
        rw [ih out1 (fun r2 h2 => hm r2 (by simp [h2]))]
        rw [heq] at hws
        rw [hws.2]
        apply String.ext
        simp [String.data_append, String.data_join]

theorem marshalOutputs_accepting_witness :
    (marshalOutputs (exampleCollaborators true).yamlMarshal stringWriter "# manifests\n"
      [Resource.Namespace (createNamespace "dev"),
       Resource.Namespace (createNamespace "stage")]).2 = none ∧
    id (marshalOutputs (exampleCollaborators true).yamlMarshal stringWriter "# manifests\n"
      [Resource.Namespace (createNamespace "dev"),
       Resource.Namespace (createNamespace "stage")]).1 =
      id "# manifests\n" ++ String.join
        ([Resource.Namespace (createNamespace "dev"),
          Resource.Namespace (createNamespace "stage")].map
          fun r => (fun _ => "kind: Resource\n") r ++ "---\n") ∧
    marshalOutputs (exampleCollaborators true).yamlMarshal stringWriter "# manifests\n" [] =
      ("# manifests\n", none) :=
  marshalOutputs_accepting (exampleCollaborators true).yamlMarshal stringWriter id
    (fun _ => "kind: Resource\n") _ "# manifests\n" (fun _ _ => rfl) (fun _ _ => ⟨rfl, rfl⟩)

/-- C12, as the claim states it, fails: on a sink with room for one document the
second write fails, `marshalOutputs` returns the error, and the sink holds the
first document. -/
theorem marshalOutputs_all_or_nothing_counterexample :
    marshalOutputs (exampleCollaborators true).yamlMarshal (boundedWriter 20) ""
      [Resource.Namespace (createNamespace "dev"),
       Resource.Namespace (createNamespace "stage")] =
      ("kind: Resource\n---\n", some "failed to write data: no space left on device") := by
  rfl

/-- C12 amended: when `marshalOutputs` returns an error, the list splits at the
first failing resource; the resources before it have been serialized to the sink
without error, and the sink is in the state they left when the failure is one of
marshalling, or in the state the failing write left; one error is reported. -/
theorem marshalOutputs_error_prefix {σ : Type} (yamlMarshal : Resource → Except String String)
    (w : Writer σ) (out : σ) (outputs : List Resource) (e : String)
    (h : (marshalOutputs yamlMarshal w out outputs).2 = some e) :
    ∃ pre r post mid, outputs = pre ++ r :: post ∧
      marshalOutputs yamlMarshal w out pre = (mid, none) ∧
      ((∃ e1, yamlMarshal r = .error e1 ∧ e = "failed to marshal data: " ++ e1 ∧
          (marshalOutputs yamlMarshal w out outputs).1 = mid) ∨
       (∃ data e1, yamlMarshal r = .ok data ∧
          (w.Write mid (data ++ "---\n")).2 = some e1 ∧
          e = "failed to write data: " ++ e1 ∧
          (marshalOutputs yamlMarshal w out outputs).1 =
            (w.Write mid (data ++ "---\n")).1)) := by
  induction outputs generalizing out with
  | nil => simp [marshalOutputs] at h
  | cons r rs ih =>
    unfold marshalOutputs at h ⊢
    cases hr : yamlMarshal r with
    | error e1 =>
      rw [hr] at h
      simp only [Option.some.injEq] at h
      exact ⟨[], r, rs, out, rfl, rfl, Or.inl ⟨e1, hr, h.symm, rfl⟩⟩
    | ok data =>
      rw [hr] at h
      simp only [] at h ⊢
      cases hw : w.Write out (data ++ "---\n") with
      | mk out1 err =>
        rw [hw] at h
        cases err with
        | some e1 =>
          simp only [Option.some.injEq] at h
          exact ⟨[], r, rs, out, rfl, rfl, Or.inr ⟨data, e1, hr, by rw [hw], h.symm, by rw [hw]⟩⟩
        | none =>
          simp only [] at h
          obtain ⟨pre, r2, post, mid, hsplit, hpre, hcase⟩ := ih out1 h
          refine ⟨r :: pre, r2, post, mid, by rw [hsplit]; rfl, ?_, ?_⟩
          · simp only [marshalOutputs, hr, hw]
            exact hpre
          · exact hcase

theorem marshalOutputs_error_prefix_witness :
    ∃ pre r post mid,
      [Resource.Namespace (createNamespace "dev"),
        Resource.Namespace (createNamespace "stage")] = pre ++ r :: post ∧
      marshalOutputs (exampleCollaborators true).yamlMarshal (boundedWriter 20) "" pre =
        (mid, none) ∧
      ((∃ e1, (exampleCollaborators true).yamlMarshal r = .error e1 ∧
          "failed to write data: no space left on device" = "failed to marshal data: " ++ e1 ∧
          (marshalOutputs (exampleCollaborators true).yamlMarshal (boundedWriter 20) ""
            [Resource.Namespace (createNamespace "dev"),
              Resource.Namespace (createNamespace "stage")]).1 = mid) ∨
       (∃ data e1, (exampleCollaborators true).yamlMarshal r = .ok data ∧
          ((boundedWriter 20).Write mid (data ++ "---\n")).2 = some e1 ∧
          "failed to write data: no space left on device" = "failed to write data: " ++ e1 ∧
          (marshalOutputs (exampleCollaborators true).yamlMarshal (boundedWriter 20) ""
            [Resource.Namespace (createNamespace "dev"),
              Resource.Namespace (createNamespace "stage")]).1 =
            ((boundedWriter 20).Write mid (data ++ "---\n")).1)) :=
  marshalOutputs_error_prefix (exampleCollaborators true).yamlMarshal (boundedWriter 20) ""
    [Resource.Namespace (createNamespace "dev"), Resource.Namespace (createNamespace "stage")]
    "failed to write data: no space left on device" (by rfl)

/-! ## createRoleBinding and createRoleBindings -/

/-- C13: the list of `createRoleBindings` holds a Role named
"tekton-triggers-openshift-demo" in ns["cicd"]; the role binding
"tekton-triggers-openshift-binding" of the list refers to the kind ("Role") and
name of that Role; and every role binding of the list has exactly one subject,
which carries the kind and name of the service account. -/
theorem createRoleBindings_references_resolve (ns : List (String × String))
    (sa : ServiceAccount) :
    ∃ role rb,
      Resource.Role role ∈ createRoleBindings ns sa ∧
      role.ObjectMeta.Name = "tekton-triggers-openshift-demo" ∧
      role.ObjectMeta.Namespace = index ns "cicd" ∧
      role.TypeMeta.Kind = "Role" ∧
      Resource.RoleBinding rb ∈ createRoleBindings ns sa ∧
      rb.ObjectMeta.Name = "tekton-triggers-openshift-binding" ∧
      (∀ rb2, Resource.RoleBinding rb2 ∈ createRoleBindings ns sa →
        rb2.ObjectMeta.Name = "tekton-triggers-openshift-binding" →
        rb2.RoleRef.Kind = role.TypeMeta.Kind ∧ rb2.RoleRef.Name = role.ObjectMeta.Name) ∧
      (∀ rb2, Resource.RoleBinding rb2 ∈ createRoleBindings ns sa →
        rb2.Subjects = [{ Kind := sa.TypeMeta.Kind, Name := sa.ObjectMeta.Name }]) := by
  refine ⟨createRole (metaNamespacedName (index ns "cicd") roleName) rules,
    createRoleBinding (metaNamespacedName (index ns "cicd") roleBindingName) sa
      "Role" roleName, ?_, rfl, rfl, rfl, ?_, rfl, ?_, ?_⟩
  · simp [createRoleBindings]
  · simp [createRoleBindings, createRole, createTypeMeta, createObjectMeta, metaNamespacedName]
  · intro rb2 hmem hname
    have h1 : ("edit-clusterrole-binding" : String) ≠ "tekton-triggers-openshift-binding" := by
      decide
    have h2 : devRoleBindingName ≠ "tekton-triggers-openshift-binding" := by decide
    have h3 : stageRoleBindingName ≠ "tekton-triggers-openshift-binding" := by decide
    simp [createRoleBindings] at hmem
    rcases hmem with hmem | hmem | hmem | hmem <;> subst hmem
    · exact ⟨rfl, rfl⟩
    · exact absurd hname h1
    · exact absurd hname h2
    · exact absurd hname h3
  · intro rb2 hmem
    simp [createRoleBindings] at hmem
    rcases hmem with hmem | hmem | hmem | hmem <;> subst hmem <;> rfl

/-- C14: `createRoleBinding` returns a resource of kind "RoleBinding" and API
version "rbac.authorization.k8s.io/v1", whose metadata depends on the name
argument only, with exactly one subject carrying sa.Kind and sa.Name and a RoleRef
of APIGroup "rbac.authorization.k8s.io", Kind = roleKind and Name = roleName; equal
arguments give equal resources. -/
theorem createRoleBinding_shape (name : NamespacedName) (sa : ServiceAccount)
    (roleKind roleName : String) :
    (createRoleBinding name sa roleKind roleName).TypeMeta =
      { Kind := "RoleBinding", APIVersion := "rbac.authorization.k8s.io/v1" } ∧
    (createRoleBinding name sa roleKind roleName).ObjectMeta = createObjectMeta name ∧
    (∀ sa2 roleKind2 roleName2,
      (createRoleBinding name sa2 roleKind2 roleName2).ObjectMeta =
        (createRoleBinding name sa roleKind roleName).ObjectMeta) ∧
    (createRoleBinding name sa roleKind roleName).Subjects =
      [{ Kind := sa.TypeMeta.Kind, Name := sa.ObjectMeta.Name }] ∧
    (createRoleBinding name sa roleKind roleName).RoleRef =
      { APIGroup := "rbac.authorization.k8s.io", Kind := roleKind, Name := roleName } ∧
    (∀ name2 sa2 roleKind2 roleName2,
      name2 = name → sa2 = sa → roleKind2 = roleKind → roleName2 = roleName →
      createRoleBinding name2 sa2 roleKind2 roleName2 =
        createRoleBinding name sa roleKind roleName) := by
  refine ⟨rfl, rfl, fun _ _ _ => rfl, rfl, rfl, ?_⟩
  intro name2 sa2 roleKind2 roleName2 h1 h2 h3 h4
  rw [h1, h2, h3, h4]

/-- C15: `createRoleBindings` returns exactly five resources in this order: the
Role in ns["cicd"], the binding of that Role in ns["cicd"], and three bindings of
ClusterRole "edit": "edit-clusterrole-binding" in ns["cicd"], "pipeline-admin-dev"
in ns["dev"] and "pipeline-admin-stage" in ns["stage"]; no binding lies in another
namespace. -/
theorem createRoleBindings_five (ns : List (String × String)) (sa : ServiceAccount) :
    ∃ role b1 b2 b3 b4,
      createRoleBindings ns sa =
        [Resource.Role role, Resource.RoleBinding b1, Resource.RoleBinding b2,
          Resource.RoleBinding b3, Resource.RoleBinding b4] ∧
      role.ObjectMeta =
        { Name := "tekton-triggers-openshift-demo", Namespace := index ns "cicd" } ∧
      b1.ObjectMeta =
        { Name := "tekton-triggers-openshift-binding", Namespace := index ns "cicd" } ∧
      b1.RoleRef = { APIGroup := "rbac.authorization.k8s.io", Kind := "Role",
                     Name := "tekton-triggers-openshift-demo" } ∧
      b2.ObjectMeta = { Name := "edit-clusterrole-binding", Namespace := index ns "cicd" } ∧
      b2.RoleRef =
        { APIGroup := "rbac.authorization.k8s.io", Kind := "ClusterRole", Name := "edit" } ∧
      b3.ObjectMeta = { Name := "pipeline-admin-dev", Namespace := index ns "dev" } ∧
      b3.RoleRef =
        { APIGroup := "rbac.authorization.k8s.io", Kind := "ClusterRole", Name := "edit" } ∧
      b4.ObjectMeta = { Name := "pipeline-admin-stage", Namespace := index ns "stage" } ∧
      b4.RoleRef =
        { APIGroup := "rbac.authorization.k8s.io", Kind := "ClusterRole", Name := "edit" } ∧
      (createRoleBindings ns sa).length = 5 ∧
      (∀ rb, Resource.RoleBinding rb ∈ createRoleBindings ns sa →
        rb.ObjectMeta.Namespace = index ns "cicd" ∨
        rb.ObjectMeta.Namespace = index ns "dev" ∨
        rb.ObjectMeta.Namespace = index ns "stage") := by
  refine ⟨_, _, _, _, _, rfl, rfl, rfl, rfl, rfl, rfl, rfl, rfl, rfl, rfl, rfl, ?_⟩
  intro rb hmem
  simp [createRoleBindings] at hmem
  rcases hmem with hmem | hmem | hmem | hmem <;> subst hmem
  · exact Or.inl rfl
  · exact Or.inl rfl
  · exact Or.inr (Or.inl rfl)
  · exact Or.inr (Or.inr rfl)

/-! ## The resources of a successful run -/

theorem bootstrapOutputs_ok_form (g : Generators) (c : Collaborators) (o : BootstrapOptions)
    (outputs : List Resource) (h : bootstrapOutputs g c o = .ok outputs) :
    ∃ isInternal repo githubAuth mid,
      validateImageRepo o = .ok (isInternal, repo) ∧
      outputs =
        ((createNamespaces (values (namespaceNames o.Prefix))).map Resource.Namespace ++
          [Resource.Secret githubAuth] ++
          (g.tasksGenerate githubAuth.ObjectMeta.Name (index (namespaceNames o.Prefix) "cicd")
            isInternal).map Resource.Task ++
          (g.triggersGenerateTemplates (index (namespaceNames o.Prefix) "cicd") saName
            repo).map Resource.TriggerTemplate ++
          (g.triggersGenerateBindings (index (namespaceNames o.Prefix) "cicd")).map
            Resource.TriggerBinding ++
          createPipelines g (namespaceNames o.Prefix) o.DeploymentPath ++
          [Resource.EventListener
            (g.eventlistenersGenerate o.GitRepo (index (namespaceNames o.Prefix) "cicd")
              saName)] ++
          [Resource.Route (g.routesGenerate (index (namespaceNames o.Prefix) "cicd"))]) ++
        mid ++
        createRoleBindings (namespaceNames o.Prefix)
          (createServiceAccount
            (metaNamespacedName (index (namespaceNames o.Prefix) "cicd") saName) g.saSecretName) ∧
      githubAuth.ObjectMeta.Name = "github-auth" ∧
      ((isInternal = true ∧ ∃ clientSet namespaceExists,
          c.getClientSet = .ok clientSet ∧
          checkNamespace clientSet ((Split repo '/').get! 1) = .ok namespaceExists ∧
          mid =
            [Resource.ServiceAccount (createServiceAccount
              (metaNamespacedName (index (namespaceNames o.Prefix) "cicd") saName)
              g.saSecretName)] ++
            (if namespaceExists then []
             else [Resource.Namespace (createNamespace ((Split repo '/').get! 1))]) ++
            [Resource.RoleBinding (createRoleBinding
              (metaNamespacedName ((Split repo '/').get! 1) "internal-registry-binding")
              (createServiceAccount
                (metaNamespacedName (index (namespaceNames o.Prefix) "cicd") saName) g.saSecretName)
              "ClusterRole" "edit")]) ∨
       (isInternal = false ∧ ∃ dockerSecret,
          dockerSecret.ObjectMeta =
            createObjectMeta
              (metaNamespacedName (index (namespaceNames o.Prefix) "cicd") dockerSecretName) ∧
          mid =
            [Resource.Secret dockerSecret,
             Resource.ServiceAccount (addSecretToSA (createServiceAccount
               (metaNamespacedName (index (namespaceNames o.Prefix) "cicd") saName) g.saSecretName)
               dockerSecretName)])) := by
  unfold bootstrapOutputs at h
  split at h
  · cases h
  split at h
  · cases h
  rename_i isInternal repo hv
  simp only [] at h
  cases hg : createOpaqueSecret c
      (metaNamespacedName (index (namespaceNames o.Prefix) "cicd") "github-auth")
      o.GithubToken with
  | error e => rw [hg] at h; cases h
  | ok githubAuth =>
    rw [hg] at h
    have hga := createOpaqueSecret_ok _ _ _ _ hg
    have hn : githubAuth.ObjectMeta.Name = "github-auth" := by
      rw [hga]; rfl
    simp only [] at h
    cases isInternal with
    | true =>
      simp only [if_true] at h
      cases hc : c.getClientSet with
      | error e => rw [hc] at h; cases h
      | ok clientSet =>
        rw [hc] at h
        simp only [] at h
        cases hq : checkNamespace clientSet ((Split repo '/').get! 1) with
        | error e => rw [hq] at h; cases h
        | ok namespaceExists =>
          rw [hq] at h
          simp only [] at h
          injection h with h
          subst h
          refine ⟨true, repo, githubAuth, _, hv, ?_, hn,
            Or.inl ⟨rfl, clientSet, namespaceExists, rfl, hq, rfl⟩⟩
          cases namespaceExists <;> simp
    | false =>
      simp only [Bool.false_eq_true, if_false] at h
      cases hd : createDockerSecret c o.QuayAuthFileName
          (index (namespaceNames o.Prefix) "cicd") with
      | error e => rw [hd] at h; cases h
      | ok dockerSecret =>
        rw [hd] at h
        simp only [] at h
        injection h with h
        subst h
        have hdn := createDockerSecret_ok _ _ _ _ hd
        refine ⟨false, repo, githubAuth, _, hv, ?_, hn, Or.inr ⟨rfl, dockerSecret, hdn, rfl⟩⟩
        simp


theorem hasNamespace_iff (outputs : List Resource) (name : String) :
    hasNamespace outputs name = true ↔
      ∃ n, Resource.Namespace n ∈ outputs ∧ n.ObjectMeta.Name = name := by
  unfold hasNamespace
  rw [List.any_eq_true]
  constructor
  · rintro ⟨r, hr, h⟩
    cases r <;> simp at h
    exact ⟨_, hr, h⟩
  · rintro ⟨s, hs, h⟩
    exact ⟨_, hs, by simp [h]⟩

/-- C16: in every successful run of `Bootstrap` whose image repo is classified
internal, the resources that the run adds for the internal registry, after those
built before the branch and before those of `createRoleBindings`, hold a Namespace
resource for the internal-registry namespace if and only if the
namespace-existence query reports that the namespace does not exist, and in both
cases the role binding "internal-registry-binding", granting ClusterRole "edit" to
the pipeline service account, in that same namespace. -/
theorem Bootstrap_internal_namespace {σ : Type} (g : Generators) (c : Collaborators)
    (w : Writer σ) (stdout : σ) (o : BootstrapOptions) (repo : String)
    (h : (Bootstrap g c w stdout o).2 = none)
    (hv : validateImageRepo o = .ok (true, repo)) :
    ∃ outputs clientSet namespaceExists githubAuth branch rb,
      bootstrapOutputs g c o = .ok outputs ∧
      c.getClientSet = .ok clientSet ∧
      checkNamespace clientSet ((Split repo '/').get! 1) = .ok namespaceExists ∧
      outputs =
        ((createNamespaces (values (namespaceNames o.Prefix))).map Resource.Namespace ++
          [Resource.Secret githubAuth] ++
          (g.tasksGenerate githubAuth.ObjectMeta.Name (index (namespaceNames o.Prefix) "cicd")
            true).map Resource.Task ++
          (g.triggersGenerateTemplates (index (namespaceNames o.Prefix) "cicd") saName
            repo).map Resource.TriggerTemplate ++
          (g.triggersGenerateBindings (index (namespaceNames o.Prefix) "cicd")).map
            Resource.TriggerBinding ++
          createPipelines g (namespaceNames o.Prefix) o.DeploymentPath ++
          [Resource.EventListener
            (g.eventlistenersGenerate o.GitRepo (index (namespaceNames o.Prefix) "cicd")
              saName)] ++
          [Resource.Route (g.routesGenerate (index (namespaceNames o.Prefix) "cicd"))]) ++
        branch ++
        createRoleBindings (namespaceNames o.Prefix)
          (createServiceAccount
            (metaNamespacedName (index (namespaceNames o.Prefix) "cicd") saName)
            g.saSecretName) ∧
      branch =
        [Resource.ServiceAccount (createServiceAccount
          (metaNamespacedName (index (namespaceNames o.Prefix) "cicd") saName)
          g.saSecretName)] ++
        (if namespaceExists then []
         else [Resource.Namespace (createNamespace ((Split repo '/').get! 1))]) ++
        [Resource.RoleBinding rb] ∧
      (hasNamespace branch ((Split repo '/').get! 1) = true ↔ namespaceExists = false) ∧
      (namespaceExists = false →
        Resource.Namespace (createNamespace ((Split repo '/').get! 1)) ∈ outputs) ∧
      Resource.RoleBinding rb ∈ outputs ∧
      rb.ObjectMeta =
        { Name := "internal-registry-binding", Namespace := (Split repo '/').get! 1 } ∧
      rb.RoleRef =
        { APIGroup := "rbac.authorization.k8s.io", Kind := "ClusterRole", Name := "edit" } ∧
      rb.Subjects = [{ Kind := "ServiceAccount", Name := "pipeline" }] := by
  unfold Bootstrap at h
  cases hb : bootstrapOutputs g c o with
  | error e => rw [hb] at h; cases h
  | ok outputs =>
    obtain ⟨isInternal, repo2, githubAuth, mid, hv2, hout, _, hmid⟩ :=
      bootstrapOutputs_ok_form g c o outputs hb
    rw [hv] at hv2
    injection hv2 with hv2
    injection hv2 with hi hr
    subst hi hr
    rcases hmid with ⟨_, clientSet, namespaceExists, hcs, hq, hmid⟩ | ⟨hf, _⟩
    · refine ⟨outputs, clientSet, namespaceExists, githubAuth, mid, createRoleBinding
          (metaNamespacedName ((Split repo '/').get! 1) "internal-registry-binding")
          (createServiceAccount
            (metaNamespacedName (index (namespaceNames o.Prefix) "cicd") saName)
            g.saSecretName)
          "ClusterRole" "edit", rfl, hcs, hq, hout, hmid, ?_, ?_, ?_, rfl, rfl, rfl⟩
      · rw [hasNamespace_iff, hmid]
        cases namespaceExists with
        | false =>
          simp [createNamespace]
        | true =>
          simp
      · intro hne
        rw [hout, hmid, hne]
        simp
      · rw [hout, hmid]
        simp
    · cases hf

theorem Bootstrap_internal_namespace_witness :
    ∃ outputs clientSet namespaceExists githubAuth branch rb,
      bootstrapOutputs exampleGenerators existingCollaborators
        (optionsOf "project/app" "registry" false) = .ok outputs ∧
      existingCollaborators.getClientSet = .ok clientSet ∧
      checkNamespace clientSet ((Split "registry/project/app" '/').get! 1) =
        .ok namespaceExists ∧
      outputs =
        ((createNamespaces (values (namespaceNames
            (optionsOf "project/app" "registry" false).Prefix))).map Resource.Namespace ++
          [Resource.Secret githubAuth] ++
          (exampleGenerators.tasksGenerate githubAuth.ObjectMeta.Name
            (index (namespaceNames (optionsOf "project/app" "registry" false).Prefix) "cicd")
            true).map Resource.Task ++
          (exampleGenerators.triggersGenerateTemplates
            (index (namespaceNames (optionsOf "project/app" "registry" false).Prefix) "cicd")
            saName "registry/project/app").map Resource.TriggerTemplate ++
          (exampleGenerators.triggersGenerateBindings
            (index (namespaceNames (optionsOf "project/app" "registry" false).Prefix)
              "cicd")).map Resource.TriggerBinding ++
          createPipelines exampleGenerators
            (namespaceNames (optionsOf "project/app" "registry" false).Prefix)
            (optionsOf "project/app" "registry" false).DeploymentPath ++
          [Resource.EventListener
            (exampleGenerators.eventlistenersGenerate
              (optionsOf "project/app" "registry" false).GitRepo
              (index (namespaceNames (optionsOf "project/app" "registry" false).Prefix) "cicd")
              saName)] ++
          [Resource.Route (exampleGenerators.routesGenerate
            (index (namespaceNames (optionsOf "project/app" "registry" false).Prefix)
              "cicd"))]) ++
        branch ++
        createRoleBindings (namespaceNames (optionsOf "project/app" "registry" false).Prefix)
          (createServiceAccount
            (metaNamespacedName
              (index (namespaceNames (optionsOf "project/app" "registry" false).Prefix) "cicd")
              saName)
            exampleGenerators.saSecretName) ∧
      branch =
        [Resource.ServiceAccount (createServiceAccount
          (metaNamespacedName
            (index (namespaceNames (optionsOf "project/app" "registry" false).Prefix) "cicd")
            saName)
          exampleGenerators.saSecretName)] ++
        (if namespaceExists then []
         else [Resource.Namespace
           (createNamespace ((Split "registry/project/app" '/').get! 1))]) ++
        [Resource.RoleBinding rb] ∧
      (hasNamespace branch ((Split "registry/project/app" '/').get! 1) = true ↔
        namespaceExists = false) ∧
      (namespaceExists = false →
        Resource.Namespace (createNamespace ((Split "registry/project/app" '/').get! 1)) ∈
          outputs) ∧
      Resource.RoleBinding rb ∈ outputs ∧
      rb.ObjectMeta =
        { Name := "internal-registry-binding",
          Namespace := (Split "registry/project/app" '/').get! 1 } ∧
      rb.RoleRef =
        { APIGroup := "rbac.authorization.k8s.io", Kind := "ClusterRole", Name := "edit" } ∧
      rb.Subjects = [{ Kind := "ServiceAccount", Name := "pipeline" }] :=
  Bootstrap_internal_namespace exampleGenerators existingCollaborators stringWriter ""
    (optionsOf "project/app" "registry" false) "registry/project/app" (by rfl) (by rfl)

theorem serviceAccounts_append (xs ys : List Resource) :
    serviceAccounts (xs ++ ys) = serviceAccounts xs ++ serviceAccounts ys := by
  simp [serviceAccounts, List.filterMap_append]

theorem serviceAccounts_map {α : Type} (f : α → Resource) (xs : List α)
    (hf : ∀ x, serviceAccounts [f x] = []) : serviceAccounts (xs.map f) = [] := by
  induction xs with
  | nil => rfl
  | cons x xs ih =>
    have h1 : serviceAccounts (f x :: xs.map f) =
        serviceAccounts [f x] ++ serviceAccounts (xs.map f) := by
      rw [← serviceAccounts_append]
      rfl
    rw [List.map_cons, h1, hf x, ih]
    rfl

theorem serviceAccounts_common (g : Generators) (o : BootstrapOptions) (githubAuth : Secret)
    (isInternal : Bool) (repo : String) :
    serviceAccounts
      ((createNamespaces (values (namespaceNames o.Prefix))).map Resource.Namespace ++
        [Resource.Secret githubAuth] ++
        (g.tasksGenerate githubAuth.ObjectMeta.Name (index (namespaceNames o.Prefix) "cicd")
          isInternal).map Resource.Task ++
        (g.triggersGenerateTemplates (index (namespaceNames o.Prefix) "cicd") saName
          repo).map Resource.TriggerTemplate ++
        (g.triggersGenerateBindings (index (namespaceNames o.Prefix) "cicd")).map
          Resource.TriggerBinding ++
        createPipelines g (namespaceNames o.Prefix) o.DeploymentPath ++
        [Resource.EventListener
          (g.eventlistenersGenerate o.GitRepo (index (namespaceNames o.Prefix) "cicd")
            saName)] ++
        [Resource.Route (g.routesGenerate (index (namespaceNames o.Prefix) "cicd"))]) = [] := by
  simp only [serviceAccounts_append]
  rw [serviceAccounts_map Resource.Namespace _ (fun _ => rfl),
    serviceAccounts_map Resource.Task _ (fun _ => rfl),
    serviceAccounts_map Resource.TriggerTemplate _ (fun _ => rfl),
    serviceAccounts_map Resource.TriggerBinding _ (fun _ => rfl)]
  rfl

/-- C17, what the code does: every successful run of `Bootstrap` emits exactly one
ServiceAccount, named "pipeline" in the cicd namespace, built by
`createServiceAccount`, which puts one secret reference on every account.  When
the image repo is classified internal the account is emitted with that reference;
when it is classified external the reference "regcred" is added after it, the name
of the docker pull Secret emitted in the same run in the cicd namespace. -/
theorem Bootstrap_service_account {σ : Type} (g : Generators) (c : Collaborators)
    (w : Writer σ) (stdout : σ) (o : BootstrapOptions)
    (h : (Bootstrap g c w stdout o).2 = none) :
    ∃ outputs isInternal repo sa,
      bootstrapOutputs g c o = .ok outputs ∧
      validateImageRepo o = .ok (isInternal, repo) ∧
      serviceAccounts outputs = [sa] ∧
      sa.ObjectMeta =
        { Name := "pipeline", Namespace := index (namespaceNames o.Prefix) "cicd" } ∧
      (isInternal = false →
        sa.Secrets = [{ Name := g.saSecretName }, { Name := "regcred" }] ∧
        ∃ s, Resource.Secret s ∈ outputs ∧
          s.ObjectMeta =
            { Name := "regcred", Namespace := index (namespaceNames o.Prefix) "cicd" }) ∧
      (isInternal = true →
        sa = createServiceAccount
          (metaNamespacedName (index (namespaceNames o.Prefix) "cicd") saName)
          g.saSecretName ∧
        sa.Secrets = [{ Name := g.saSecretName }] ∧
        sa.Secrets ≠ []) := by
  unfold Bootstrap at h
  cases hb : bootstrapOutputs g c o with
  | error e => rw [hb] at h; cases h
  | ok outputs =>
    obtain ⟨isInternal, repo, githubAuth, mid, hv, hout, _, hmid⟩ :=
      bootstrapOutputs_ok_form g c o outputs hb
    have hrb : serviceAccounts (createRoleBindings (namespaceNames o.Prefix)
        (createServiceAccount
          (metaNamespacedName (index (namespaceNames o.Prefix) "cicd") saName)
          g.saSecretName)) = [] := rfl
    rcases hmid with ⟨hi, clientSet, namespaceExists, _, _, hmid⟩ | ⟨hi, dockerSecret, hdn, hmid⟩
    · subst hi
      refine ⟨outputs, true, repo, createServiceAccount
        (metaNamespacedName (index (namespaceNames o.Prefix) "cicd") saName) g.saSecretName,
        rfl, hv, ?_, rfl, fun hf => (by cases hf), fun _ => ⟨rfl, rfl, ?_⟩⟩
      · rw [hout, serviceAccounts_append, serviceAccounts_append, serviceAccounts_common, hrb,
          hmid]
        cases namespaceExists <;> rfl
      · simp [createServiceAccount]
    · subst hi
      refine ⟨outputs, false, repo, addSecretToSA (createServiceAccount
        (metaNamespacedName (index (namespaceNames o.Prefix) "cicd") saName) g.saSecretName)
        dockerSecretName,
        rfl, hv, ?_, rfl, fun _ => ⟨rfl, dockerSecret, ?_, ?_⟩, fun hf => (by cases hf)⟩
      · rw [hout, serviceAccounts_append, serviceAccounts_append, serviceAccounts_common, hrb,
          hmid]
        rfl
      · rw [hout, hmid]
        simp
      · rw [hdn]
        rfl

theorem Bootstrap_service_account_witness :
    ∃ outputs isInternal repo sa,
      bootstrapOutputs exampleGenerators (exampleCollaborators true)
        (optionsOf "project/app" "registry" false) = .ok outputs ∧
      validateImageRepo (optionsOf "project/app" "registry" false) =
        .ok (isInternal, repo) ∧
      serviceAccounts outputs = [sa] ∧
      sa.ObjectMeta =
        { Name := "pipeline",
          Namespace := index
            (namespaceNames (optionsOf "project/app" "registry" false).Prefix) "cicd" } ∧
      (isInternal = false →
        sa.Secrets = [{ Name := exampleGenerators.saSecretName }, { Name := "regcred" }] ∧
        ∃ s, Resource.Secret s ∈ outputs ∧
          s.ObjectMeta =
            { Name := "regcred",
              Namespace := index
                (namespaceNames (optionsOf "project/app" "registry" false).Prefix)
                "cicd" }) ∧
      (isInternal = true →
        sa = createServiceAccount
          (metaNamespacedName
            (index (namespaceNames (optionsOf "project/app" "registry" false).Prefix) "cicd")
            saName)
          exampleGenerators.saSecretName ∧
        sa.Secrets = [{ Name := exampleGenerators.saSecretName }] ∧
        sa.Secrets ≠ []) :=
  Bootstrap_service_account exampleGenerators (exampleCollaborators true) stringWriter ""
    (optionsOf "project/app" "registry" false) (by rfl)

/-! ## Normalization and the internal-registry namespace -/

theorem splitChars_append (sep : Char) (h r : List Char) :
    splitChars sep (h ++ sep :: r) = splitChars sep h ++ splitChars sep r := by
  induction h with
  | nil => simp [splitChars]
  | cons c cs ih =>
    by_cases hc : c = sep
    · rw [List.cons_append, splitChars, if_pos hc, ih, splitChars, if_pos hc]
      rfl
    · rw [List.cons_append, splitChars, if_neg hc, ih]
      conv_rhs => rw [splitChars, if_neg hc]
      cases hsp : splitChars sep cs with
      | nil => exact absurd hsp (splitChars_ne_nil sep cs)
      | cons w ws => rfl

theorem Split_append (h r : String) :
    Split (h ++ "/" ++ r) '/' = Split h '/' ++ Split r '/' := by
  have e : (h ++ "/" ++ r).data = h.data ++ '/' :: r.data := by
    simp [String.data_append]
  simp [Split, e, splitChars_append]

theorem Split_length_pos (s : String) : 1 ≤ (Split s '/').length := by
  unfold Split
  rw [List.length_map]
  cases hsp : splitChars '/' s.data with
  | nil => exact absurd hsp (splitChars_ne_nil _ _)
  | cons w ws => simp

theorem validateImageRepo_ok_cases (o : BootstrapOptions) (isInternal : Bool) (repo : String)
    (h : validateImageRepo o = .ok (isInternal, repo)) :
    (∃ a b, Split o.ImageRepo '/' = [a, b] ∧ TrimSpace a ≠ "" ∧ TrimSpace b ≠ "" ∧
      isInternal = true ∧ repo = o.InternalRegistryHostname ++ "/" ++ o.ImageRepo) ∨
    (∃ a b d, Split o.ImageRepo '/' = [a, b, d] ∧ TrimSpace a ≠ "" ∧ TrimSpace b ≠ "" ∧
      TrimSpace d ≠ "" ∧ isInternal = (a == o.InternalRegistryHostname) ∧
      repo = o.ImageRepo) := by
  unfold validateImageRepo at h
  generalize hc : Split o.ImageRepo '/' = comps at h
  match comps, hc with
  | [], _ => simp at h
  | [a], _ => simp at h
  | [a, b], hc =>
    left
    by_cases ha : TrimSpace a = ""
    · simp [ha] at h
    by_cases hb : TrimSpace b = ""
    · simp [ha, hb] at h
    by_cases hr : (a = "docker.io" ∨ a = "quay.io")
    · simp [ha, hb, hr] at h
    · simp [ha, hb, hr] at h
      exact ⟨a, b, rfl, ha, hb, h.1, h.2.symm⟩
  | [a, b, d], hc =>
    right
    by_cases ha : TrimSpace a = ""
    · simp [ha] at h
    by_cases hb : TrimSpace b = ""
    · simp [ha, hb] at h
    by_cases hd : TrimSpace d = ""
    · simp [ha, hb, hd] at h
    simp [ha, hb, hd] at h
    refine ⟨a, b, d, rfl, ha, hb, hd, ?_, h.2.symm⟩
    rw [← h.1]
  | a :: b :: d :: e :: rest, _ =>
    simp only [List.length_cons] at h
    have h1 : ¬ (rest.length + 1 + 1 + 1 + 1 < 2) := by omega
    have h2 : ¬ (rest.length + 1 + 1 + 1 + 1 = 2) := by omega
    have h3 : ¬ (rest.length + 1 + 1 + 1 + 1 = 3) := by omega
    simp only [h1, h2, h3, if_false] at h
    split at h <;> cases h


/-- C18: normalization is idempotent: when InternalRegistryHostname is not blank
and contains no "/", and `validateImageRepo` succeeds with (isInternal, repo),
running it again on the image repo `repo` with the same hostname succeeds with
the same (isInternal, repo). -/
theorem validateImageRepo_idempotent (o : BootstrapOptions) (isInternal : Bool)
    (repo : String) (hb : TrimSpace o.InternalRegistryHostname ≠ "")
    (hs : '/' ∉ o.InternalRegistryHostname.data)
    (h : validateImageRepo o = .ok (isInternal, repo)) :
    validateImageRepo { o with ImageRepo := repo } = .ok (isInternal, repo) := by
  rcases validateImageRepo_ok_cases o isInternal repo h with
    ⟨a, b, hc, ha, hb2, hi, hr⟩ | ⟨a, b, d, hc, _, _, _, _, hr⟩
  · have hsplit : Split repo '/' = [o.InternalRegistryHostname, a, b] := by
      rw [hr, Split_append_sep _ _ hs, hc]
    subst hi
    simp [validateImageRepo, hsplit, hb, ha, hb2]
  · have ho : { o with ImageRepo := repo } = o := by
      rw [hr]
    rw [ho]
    exact h

theorem validateImageRepo_idempotent_witness :
    validateImageRepo
      { optionsOf "project/app" "registry" true with ImageRepo := "registry/project/app" } =
      .ok (true, "registry/project/app") :=
  validateImageRepo_idempotent (optionsOf "project/app" "registry" true) true
    "registry/project/app" (by decide) (by decide) (by rfl)

/-- C19, as the claim states it, fails: with the hostname "registry.local/mirror"
the accepted image repo "project/app" is normalized to a repo whose component at
index 1 is "mirror", not "project". -/
theorem validateImageRepo_project_namespace_counterexample :
    Split "project/app" '/' = ["project", "app"] ∧
    validateImageRepo (optionsOf "project/app" "registry.local/mirror" true) =
      .ok (true, "registry.local/mirror/project/app") ∧
    (Split "registry.local/mirror/project/app" '/').get! 1 = "mirror" := by
  exact ⟨by rfl, by rfl, by rfl⟩

/-- C19 amended: for every accepted two-component image repo "<project>/<app>" and
every InternalRegistryHostname that contains no "/", the component at index 1 of
the normalized repo is <project>; in every run of `Bootstrap` that reaches the
serializer the namespace-existence query is made for <project>, the Namespace
resource appended when it is missing is that of <project>, and the role binding
"internal-registry-binding" lies in <project>. -/
theorem validateImageRepo_project_namespace (o : BootstrapOptions) (project app : String)
    (hc : Split o.ImageRepo '/' = [project, app])
    (hacc : ∃ r, validateImageRepo o = .ok r)
    (hs : '/' ∉ o.InternalRegistryHostname.data) :
    ∃ repo, validateImageRepo o = .ok (true, repo) ∧
      (Split repo '/').get! 1 = project ∧
      ∀ (g : Generators) (c : Collaborators) (outputs : List Resource),
        bootstrapOutputs g c o = .ok outputs →
        ∃ clientSet namespaceExists rb,
          c.getClientSet = .ok clientSet ∧
          checkNamespace clientSet project = .ok namespaceExists ∧
          (namespaceExists = false →
            Resource.Namespace (createNamespace project) ∈ outputs) ∧
          Resource.RoleBinding rb ∈ outputs ∧
          rb.ObjectMeta = { Name := "internal-registry-binding", Namespace := project } := by
  obtain ⟨⟨isInternal, repo⟩, hv⟩ := hacc
  rcases validateImageRepo_ok_cases o isInternal repo hv with
    ⟨a, b, hc2, _, _, hi, hr⟩ | ⟨a, b, d, hc2, _⟩
  · rw [hc] at hc2
    injection hc2 with h1 h2
    injection h2 with h2 _
    subst h1 h2 hi
    have hsplit : Split repo '/' = [o.InternalRegistryHostname, project, app] := by
      rw [hr, Split_append_sep _ _ hs, hc]
    have hidx : (Split repo '/').get! 1 = project := by
      rw [hsplit]
      rfl
    refine ⟨repo, hv, hidx, ?_⟩
    intro g c outputs hb
    obtain ⟨isInternal2, repo2, githubAuth, mid, hv2, hout, _, hmid⟩ :=
      bootstrapOutputs_ok_form g c o outputs hb
    rw [hv] at hv2
    injection hv2 with hv2
    injection hv2 with hi2 hr2
    subst hi2 hr2
    rcases hmid with ⟨_, clientSet, namespaceExists, hcs, hq, hmid⟩ | ⟨hf, _⟩
    · rw [hidx] at hq hmid
      refine ⟨clientSet, namespaceExists, createRoleBinding
        (metaNamespacedName project "internal-registry-binding")
        (createServiceAccount
          (metaNamespacedName (index (namespaceNames o.Prefix) "cicd") saName) g.saSecretName)
        "ClusterRole" "edit", hcs, hq, ?_, ?_, rfl⟩
      · intro hne
        rw [hout, hmid, hne]
        simp
      · rw [hout, hmid]
        simp
    · cases hf
  · rw [hc] at hc2
    simp at hc2

theorem validateImageRepo_project_namespace_witness :
    ∃ repo, validateImageRepo (optionsOf "project/app" "registry" false) = .ok (true, repo) ∧
      (Split repo '/').get! 1 = "project" ∧
      ∀ (g : Generators) (c : Collaborators) (outputs : List Resource),
        bootstrapOutputs g c (optionsOf "project/app" "registry" false) = .ok outputs →
        ∃ clientSet namespaceExists rb,
          c.getClientSet = .ok clientSet ∧
          checkNamespace clientSet "project" = .ok namespaceExists ∧
          (namespaceExists = false →
            Resource.Namespace (createNamespace "project") ∈ outputs) ∧
          Resource.RoleBinding rb ∈ outputs ∧
          rb.ObjectMeta = { Name := "internal-registry-binding", Namespace := "project" } :=
  validateImageRepo_project_namespace (optionsOf "project/app" "registry" false)
    "project" "app" (by rfl) ⟨(true, "registry/project/app"), by rfl⟩ (by decide)

/-- C20: the index `strings.Split(imageRepo, "/")[1]` of `Bootstrap` is in range:
whenever `validateImageRepo` succeeds, the normalized repo splits on "/" into at
least two components, so the component at index 1 exists. -/
theorem validateImageRepo_index_in_range (o : BootstrapOptions) (isInternal : Bool)
    (repo : String) (h : validateImageRepo o = .ok (isInternal, repo)) :
    2 ≤ (Split repo '/').length ∧
    (Split repo '/').get? 1 = some ((Split repo '/').get! 1) := by
  have hlen : 2 ≤ (Split repo '/').length := by
    rcases validateImageRepo_ok_cases o isInternal repo h with
      ⟨a, b, hc, _, _, _, hr⟩ | ⟨a, b, d, hc, _, _, _, _, hr⟩
    · rw [hr, Split_append, hc, List.length_append]
      have := Split_length_pos o.InternalRegistryHostname
      simp
    · rw [hr, hc]
      simp
  refine ⟨hlen, ?_⟩
  match hsp : Split repo '/', hlen with
  | _ :: _ :: _, _ => rfl

theorem validateImageRepo_index_in_range_witness :
    2 ≤ (Split "x/y/p/a" '/').length ∧
    (Split "x/y/p/a" '/').get? 1 = some ((Split "x/y/p/a" '/').get! 1) :=
  validateImageRepo_index_in_range (optionsOf "p/a" "x/y" true) true "x/y/p/a" (by rfl)

end Pipelines
